import Mathlib

/-!
Verification development for the sentry-api repository.

The embedding below translates the core logic of `sentry_cli.py` (and the
identical pagination/request code in `sentry_client.py`) into Lean:

* `SentryClient.get`            embeds `SentryClient._get` (requests.get +
                                `response.raise_for_status()`);
* `SentryClient.getPaginatedGo` embeds the `while url:` loop of
                                `SentryClient._get_paginated`;
* `buildQuery`                  embeds the query-string construction of
                                `cmd_fetch_issues` (lines 384-404);
* `matchesTextFilter`           embeds `matches_text_filter`;
* `cmdFetchIssues`              embeds the fetch/filter pipeline of
                                `cmd_fetch_issues`.

The HTTP world is modelled by a deterministic `Server` function mapping a
request (url, headers, params) to the `Response` the remote end would give;
the code under verification is instrumented with a ghost log of the requests
it issues (one `RequestRec` per `requests.get` call), so that claims about
"how many fetches happened" and "what each request carried" are statable.
The loop is driven by an explicit `fuel` bound; `none` as a result means the
loop was still running when the fuel ran out (the Python loop has no bound of
its own and can run forever against an ever-continuing server).
-/

namespace SentryApi

/-- A JSON-like scalar as it can appear in an issue's `metadata` mapping.
`pyStr` is Python's `str()` rendering of it. -/
inductive JVal where
  | s (v : String)
  | i (v : Int)
  | b (v : Bool)
  | null
deriving DecidableEq

/-- Python `str()` of a `JVal` (strings render verbatim, as in
`str(metadata.get('value', ''))` applied to a string value). -/
def JVal.pyStr : JVal → String
  | .s v => v
  | .i v => toString v
  | .b true => "True"
  | .b false => "False"
  | .null => "None"

/-- The `metadata` sub-dictionary of an issue; the code reads only the
`value` and `type` keys (`metadata.get('value', '')`, `metadata.get('type', '')`),
each of which may be absent. -/
structure Metadata where
  value : Option JVal
  type : Option JVal
deriving DecidableEq

/-- An issue/event record, restricted to the fields the core reads for
filtering: `title`, `culprit` and the `metadata` mapping.  A `none` field
models the key being absent from the JSON object (`issue.get(k, default)`). -/
structure Resource where
  title : Option String
  culprit : Option String
  metadata : Option Metadata
deriving DecidableEq

/-- Query parameters of one request (`params=` of `requests.get`). -/
abbrev Params := List (String × String)

/-- The `next` entry of `response.links`: the continuation URL plus the
optional `results` flag string (`response.links['next'].get('results')`). -/
structure PageLink where
  url : String
  results : Option String
deriving DecidableEq

/-- One HTTP response as the client observes it: status code, raw body
(carried by the raised `HTTPError`), the JSON-decoded list of items, and the
optional `next` link relation. -/
structure Response where
  status : Nat
  body : String
  items : List Resource
  next : Option PageLink
deriving DecidableEq

/-- `'next' in response.links and response.links['next'].get('results') == 'true'`
— the loop's continuation test. -/
def Response.hasMore (r : Response) : Bool :=
  match r.next with
  | some l => decide (l.results = some "true")
  | none => false

/-- `response.links['next']['url']` — read by the loop only when `hasMore`
holds (a response with no `next` link maps to `""`, which the loop never
reads in that case). -/
def Response.nextUrl (r : Response) : String :=
  match r.next with
  | some l => l.url
  | none => ""

/-- The deterministic remote end: what response comes back for a given
(url, headers, params) request. -/
abbrev Server := String → List (String × String) → Option Params → Response

/-- Ghost record of one `requests.get(url, headers=..., params=...)` call. -/
structure RequestRec where
  url : String
  headers : List (String × String)
  params : Option Params
deriving DecidableEq

/-- The errors of the core's taxonomy: `HttpError` (a raised
`requests.HTTPError`, carrying status and body) and `ValidationError` (the
`ValueError` raised by `datetime.fromisoformat` on a malformed date,
carrying the offending input). -/
inductive SentryError where
  | httpError (status : Nat) (body : String)
  | validationError (input : String)
deriving DecidableEq

/-- The headers built in `SentryClient.__init__`: bearer-token auth plus the
JSON content type. -/
def mkHeaders (authToken : String) : List (String × String) :=
  [("Authorization", "Bearer " ++ authToken), ("Content-Type", "application/json")]

/-- `response.raise_for_status()` of the requests library: raises `HTTPError`
exactly for status codes 400-599 (4xx client errors and 5xx server errors);
any other status returns the response unchanged. -/
def raiseForStatus (r : Response) : Except SentryError Response :=
  if 400 ≤ r.status ∧ r.status < 600 then .error (.httpError r.status r.body)
  else .ok r

namespace SentryClient

/-- `SentryClient._get`: one `requests.get(url, headers=self.headers,
params=params)` round trip followed by `raise_for_status()`.  Exactly one
server interaction per call; no retry. -/
def get (server : Server) (headers : List (String × String))
    (url : String) (params : Option Params) : Except SentryError Response :=
  raiseForStatus (server url headers params)

/-- Python truthiness test `if max_pages and page_count >= max_pages:` —
`None` and `0` are falsy, a nonzero bound is compared against the counter. -/
def maxPagesHit : Option Nat → Nat → Bool
  | none, _ => false
  | some m, c => decide (m ≠ 0) && decide (m ≤ c)

/-- The `while url:` loop body of `SentryClient._get_paginated`, fuel-indexed.
`allItems`, `pageCount` are the loop's mutable state (`all_items`,
`page_count`); `log` is the ghost request log.  Per iteration: if `url` is
falsy the loop exits; otherwise one `_get` is performed (and logged); a
raised `HTTPError` propagates, discarding `allItems`; otherwise the page's
items are appended, and if the response advertises a further page the cursor
advances (`params` cleared to `none`), the counter is incremented and the
`max_pages` bound checked; otherwise the loop breaks.  A `none` result means
the fuel ran out with the loop still running. -/
def getPaginatedGo (server : Server) (headers : List (String × String)) :
    Nat → String → Option Params → Option Nat → List Resource → Nat →
    List RequestRec → Option (Except SentryError (List Resource) × List RequestRec)
  | 0, _, _, _, _, _, _ => none
  | fuel + 1, url, params, maxPages, allItems, pageCount, log =>
    if url = "" then
      some (.ok allItems, log)
    else
      match get server headers url params with
      | .error e => some (.error e, log ++ [⟨url, headers, params⟩])
      | .ok resp =>
        if resp.hasMore then
          if maxPagesHit maxPages (pageCount + 1) then
            some (.ok (allItems ++ resp.items), log ++ [⟨url, headers, params⟩])
          else
            getPaginatedGo server headers fuel resp.nextUrl none maxPages
              (allItems ++ resp.items) (pageCount + 1) (log ++ [⟨url, headers, params⟩])
        else
          some (.ok (allItems ++ resp.items), log ++ [⟨url, headers, params⟩])

/-- `SentryClient._get_paginated(url, params, max_pages)`: the loop started
with `all_items = []`, `page_count = 0` and an empty ghost log. -/
def getPaginated (server : Server) (headers : List (String × String))
    (fuel : Nat) (url : String) (params : Option Params) (maxPages : Option Nat) :
    Option (Except SentryError (List Resource) × List RequestRec) :=
  getPaginatedGo server headers fuel url params maxPages [] 0 []

end SentryClient

/-- The response the walker observes for its `i`-th fetch (0-indexed), when
started at `(url, params)`: fetch 0 hits the start request, and each later
fetch hits the previous response's continuation URL with cleared params. -/
def pageResp (server : Server) (headers : List (String × String))
    (url : String) (params : Option Params) : Nat → Response
  | 0 => server url headers params
  | i + 1 => server ((pageResp server headers url params i).nextUrl) headers none

/-- The concatenation, in fetch order, of the items of the first `n` pages of
the chain starting at `(url, params)`. -/
def pagesItems (server : Server) (headers : List (String × String)) :
    Nat → String → Option Params → List Resource
  | 0, _, _ => []
  | n + 1, url, params =>
    (server url headers params).items
      ++ pagesItems server headers n ((server url headers params).nextUrl) none

/-- The requests issued for the first `n` pages of the chain starting at
`(url, params)`, in fetch order. -/
def pagesLog (server : Server) (headers : List (String × String)) :
    Nat → String → Option Params → List RequestRec
  | 0, _, _ => []
  | n + 1, url, params =>
    ⟨url, headers, params⟩
      :: pagesLog server headers n ((server url headers params).nextUrl) none

/-- Python truthiness of an optional string argument (`if args.x:`):
falsy when the argument is absent (`None`) or the empty string. -/
def strTruthy : Option String → Bool
  | none => false
  | some s => decide (s ≠ "")

/-- ASCII lowercasing of a string, character by character — Python's
`str.lower()` on the ASCII range. -/
def lowerStr (s : String) : String := String.mk (s.data.map Char.toLower)

/-- `needle` occurs as a contiguous sublist of `hay`. -/
def subListOf (needle : List Char) : List Char → Bool
  | [] => needle.isPrefixOf []
  | c :: rest => needle.isPrefixOf (c :: rest) || subListOf needle rest

/-- Python's substring test `needle in hay` on strings. -/
def strContainsSub (hay needle : String) : Bool := subListOf needle.data hay.data

/-- `matches_text_filter(issue, text_filter)` (sentry_cli.py:353-372):
case-insensitive substring search over title, culprit, `str(metadata.value)`
and `str(metadata.type)`, each defaulting to the empty string when absent. -/
def matchesTextFilter (issue : Resource) (textFilter : String) : Bool :=
  let tfl := lowerStr textFilter
  if strContainsSub (lowerStr (issue.title.getD "")) tfl then true
  else if strContainsSub (lowerStr (issue.culprit.getD "")) tfl then true
  else
    let md := issue.metadata.getD ⟨none, none⟩
    if strContainsSub (lowerStr (md.value.getD (.s "")).pyStr) tfl then true
    else if strContainsSub (lowerStr (md.type.getD (.s "")).pyStr) tfl then true
    else false

/-- The local filtering step of `cmd_fetch_issues` (line 421):
`[issue for issue in issues if matches_text_filter(issue, args.text_filter)]`. -/
def applyTextFilter (issues : List Resource) (textFilter : String) : List Resource :=
  issues.filter (fun issue => matchesTextFilter issue textFilter)

/-- The four server-side filter criteria consumed by the query-building block
of `cmd_fetch_issues` (`args.environment`, `args.start_at`, `args.end_at`,
`args.query`); `none` models an argument the user did not pass. -/
structure IssueFilters where
  environment : Option String
  startAt : Option String
  endAt : Option String
  query : Option String
deriving DecidableEq

/-- The `environment:<value>` fragment (appended when `args.environment` is
truthy). -/
def envParts (f : IssueFilters) : List String :=
  if strTruthy f.environment then ["environment:" ++ f.environment.getD ""] else []

/-- The `firstSeen:>` fragment: `datetime.fromisoformat(args.start_at)`
followed by `.isoformat()` and a trailing `Z`.  `fromiso` models the composed
library calls; `none` models the `ValueError` raised on a malformed date,
which surfaces as the taxonomy's `ValidationError`. -/
def startParts (fromiso : String → Option String) (f : IssueFilters) :
    Except SentryError (List String) :=
  if strTruthy f.startAt then
    match fromiso (f.startAt.getD "") with
    | some iso => .ok ["firstSeen:>" ++ iso ++ "Z"]
    | none => .error (.validationError (f.startAt.getD ""))
  else .ok []

/-- The `firstSeen:<` fragment for `args.end_at`, as `startParts`. -/
def endParts (fromiso : String → Option String) (f : IssueFilters) :
    Except SentryError (List String) :=
  if strTruthy f.endAt then
    match fromiso (f.endAt.getD "") with
    | some iso => .ok ["firstSeen:<" ++ iso ++ "Z"]
    | none => .error (.validationError (f.endAt.getD ""))
  else .ok []

/-- The raw free-text fragment (`args.query`, appended verbatim). -/
def rawParts (f : IssueFilters) : List String :=
  if strTruthy f.query then [f.query.getD ""] else []

/-- The query-composition block of `cmd_fetch_issues` (lines 384-404):
fragments are collected in the fixed order environment, start, end, raw
query (with the two dates parsed in that order, a parse failure aborting
immediately), and `query = " ".join(query_parts) if query_parts else None`. -/
def buildQuery (fromiso : String → Option String) (f : IssueFilters) :
    Except SentryError (Option String) :=
  match startParts fromiso f with
  | .error e => .error e
  | .ok sp =>
    match endParts fromiso f with
    | .error e => .error e
    | .ok ep =>
      let parts := envParts f ++ sp ++ ep ++ rawParts f
      .ok (if parts = [] then none else some (String.intercalate " " parts))

/-- The fragments of the composed query, written as the specification
describes them: `environment:<value>`, `firstSeen:><startAt iso>Z`,
`firstSeen:<<endAt iso>Z`, raw query, in this fixed order (`isoS`/`isoE` are
the ISO renderings of the parsed dates). -/
def queryFragments (f : IssueFilters) (isoS isoE : String) : List String :=
  (if strTruthy f.environment then ["environment:" ++ f.environment.getD ""] else [])
    ++ (if strTruthy f.startAt then ["firstSeen:>" ++ isoS ++ "Z"] else [])
    ++ (if strTruthy f.endAt then ["firstSeen:<" ++ isoE ++ "Z"] else [])
    ++ (if strTruthy f.query then [f.query.getD ""] else [])

/-- URL building of `SentryClient.list_issues`: project-scoped when a project
slug is given (truthy), organisation-scoped otherwise. -/
def issuesUrl (baseUrl orgSlug : String) (projectSlug : Option String) : String :=
  if strTruthy projectSlug then
    baseUrl ++ "/projects/" ++ orgSlug ++ "/" ++ projectSlug.getD "" ++ "/issues/"
  else
    baseUrl ++ "/organizations/" ++ orgSlug ++ "/issues/"

/-- The params dict of `SentryClient.list_issues`: `statsPeriod`, `limit`,
`sort`, plus `query` when truthy. -/
def listIssuesParams (statsPeriod : String) (lim : Nat) (sort : String)
    (query : Option String) : Params :=
  [("statsPeriod", statsPeriod), ("limit", toString lim), ("sort", sort)]
    ++ (if strTruthy query then [("query", query.getD "")] else [])

/-- `SentryClient.list_issues`: a single (non-paginated) `_get`, returning the
decoded items; the ghost log records the one request issued. -/
def listIssues (server : Server) (headers : List (String × String))
    (url statsPeriod : String) (lim : Nat) (sort : String) (query : Option String) :
    Except SentryError (List Resource) × List RequestRec :=
  let params := listIssuesParams statsPeriod lim sort query
  match SentryClient.get server headers url (some params) with
  | .error e => (.error e, [⟨url, headers, some params⟩])
  | .ok r => (.ok r.items, [⟨url, headers, some params⟩])

/-- The validated argument set of the `fetch-issues` command. -/
structure FetchIssuesArgs where
  project : String
  environment : Option String
  startAt : Option String
  endAt : Option String
  query : Option String
  textFilter : Option String
  statsPeriod : Option String
  limit : Nat
  sort : String
deriving DecidableEq

/-- `cmd_fetch_issues` (sentry_cli.py:379-442), printing elided: build the
query string (a malformed date aborts here, before any request), call
`list_issues`, then locally re-filter with `matches_text_filter` when a text
filter was given.  The second component is the ghost log of requests issued. -/
def cmdFetchIssues (server : Server) (headers : List (String × String))
    (fromiso : String → Option String) (baseUrl orgSlug : String)
    (args : FetchIssuesArgs) :
    Except SentryError (List Resource) × List RequestRec :=
  match buildQuery fromiso ⟨args.environment, args.startAt, args.endAt, args.query⟩ with
  | .error e => (.error e, [])
  | .ok query =>
    let statsPeriod := if strTruthy args.statsPeriod then args.statsPeriod.getD "" else "24h"
    match listIssues server headers (issuesUrl baseUrl orgSlug (some args.project))
        statsPeriod args.limit args.sort query with
    | (.error e, log) => (.error e, log)
    | (.ok issues, log) =>
      let issues :=
        if strTruthy args.textFilter then applyTextFilter issues (args.textFilter.getD "")
        else issues
      (.ok issues, log)

/-- The response does not trip `raise_for_status` (status outside 400-599). -/
def httpOk (r : Response) : Prop := ¬(400 ≤ r.status ∧ r.status < 600)

instance (r : Response) : Decidable (httpOk r) :=
  inferInstanceAs (Decidable (¬(400 ≤ r.status ∧ r.status < 600)))

/-- A "keep going" page: fetch succeeds, a further page is advertised, and
the continuation URL is non-empty (so `while url` re-enters the loop). -/
def contOk (r : Response) : Prop :=
  httpOk r ∧ r.hasMore = true ∧ r.nextUrl ≠ ""

instance (r : Response) : Decidable (contOk r) :=
  inferInstanceAs (Decidable (httpOk r ∧ r.hasMore = true ∧ r.nextUrl ≠ ""))

/-! ### Concrete fixtures used by the witness theorems -/

/-- Headers of a client initialised with token `"tok"`. -/
def hdrs0 : List (String × String) := mkHeaders "tok"

/-- An issue titled "Null pointer in Foo" (spec scenario fixture). -/
def rNull : Resource := ⟨some "Null pointer in Foo", none, none⟩

/-- An issue titled "Timeout" (spec scenario fixture). -/
def rTimeout : Resource := ⟨some "Timeout", none, none⟩

/-- A server answering every request with 200 and one item, no next link. -/
def srv200 : Server := fun _ _ _ => ⟨200, "", [rNull], none⟩

/-- A server answering every request with 404. -/
def srv404 : Server := fun _ _ _ => ⟨404, "not found", [], none⟩

/-- A server answering every request with 304 Not Modified. -/
def srv304 : Server := fun _ _ _ => ⟨304, "", [], none⟩

/-- A server that always advertises a further page. -/
def srvAlways : Server := fun _ _ _ => ⟨200, "", [rNull], some ⟨"next", some "true"⟩⟩

/-- A server whose first (and only) page is empty with no next link. -/
def srvEmptyOne : Server := fun _ _ _ => ⟨200, "", [], none⟩

/-- A two-page chain: `"u1"` continues to `"u2"`, which is the last page. -/
def srvTwo : Server := fun u _ _ =>
  if u = "u1" then ⟨200, "", [rNull], some ⟨"u2", some "true"⟩⟩
  else ⟨200, "", [rTimeout], none⟩

/-- A chain whose first page continues to `"u2"`, which answers 500. -/
def srvFailSecond : Server := fun u _ _ =>
  if u = "u1" then ⟨200, "", [rNull], some ⟨"u2", some "true"⟩⟩
  else ⟨500, "boom", [], none⟩

/-- A date parser/formatter fixture: accepts exactly `"2024-01-01"`. -/
def fromisoX : String → Option String :=
  fun s => if s = "2024-01-01" then some "2024-01-01T00:00:00" else none

/-- The caller-supplied params of a paginated events fetch with page size
100 (`params = {"limit": limit}` in `list_issue_events`). -/
def pLimit : Params := [("limit", "100")]

/-! ### Helper lemmas about the request executor -/

theorem raiseForStatus_ok {r : Response} (h : httpOk r) : raiseForStatus r = .ok r :=
  if_neg h

theorem raiseForStatus_err {r : Response} (h : 400 ≤ r.status ∧ r.status < 600) :
    raiseForStatus r = .error (.httpError r.status r.body) :=
  if_pos h

theorem get_ok {server : Server} {headers : List (String × String)} {url : String}
    {params : Option Params} (h : httpOk (server url headers params)) :
    SentryClient.get server headers url params = .ok (server url headers params) :=
  raiseForStatus_ok h

theorem get_err {server : Server} {headers : List (String × String)} {url : String}
    {params : Option Params}
    (h : 400 ≤ (server url headers params).status ∧ (server url headers params).status < 600) :
    SentryClient.get server headers url params
      = .error (.httpError (server url headers params).status (server url headers params).body) :=
  raiseForStatus_err h

/-! ### Helper lemmas about the pagination traces -/

theorem pageResp_succ (server : Server) (headers : List (String × String))
    (url : String) (params : Option Params) (i : Nat) :
    pageResp server headers url params (i + 1)
      = pageResp server headers ((server url headers params).nextUrl) none i := by
  induction i with
  | zero => rfl
  | succ n ih =>
    show server ((pageResp server headers url params (n + 1)).nextUrl) headers none = _
    rw [ih]
    rfl

theorem pagesLog_length (server : Server) (headers : List (String × String)) :
    ∀ (n : Nat) (url : String) (params : Option Params),
      (pagesLog server headers n url params).length = n := by
  intro n
  induction n with
  | zero => intro url params; rfl
  | succ m ih => intro url params; simp [pagesLog, ih]

theorem pagesItems_eq_flatten (server : Server) (headers : List (String × String)) :
    ∀ (n : Nat) (url : String) (params : Option Params),
      pagesItems server headers n url params
        = ((List.range n).map
            (fun i => (pageResp server headers url params i).items)).flatten := by
  intro n
  induction n with
  | zero => intro url params; simp [pagesItems]
  | succ m ih =>
    intro url params
    rw [List.range_succ_eq_map, List.map_cons, List.flatten_cons, List.map_map]
    have hmap :
        List.map ((fun i => (pageResp server headers url params i).items) ∘ Nat.succ)
            (List.range m)
          = List.map
              (fun i =>
                (pageResp server headers ((server url headers params).nextUrl) none i).items)
              (List.range m) :=
      List.map_congr_left (fun i _ => by simp [Function.comp, pageResp_succ])
    rw [hmap]
    simp [pagesItems, ih, pageResp]

/-! ### Induction lemmas about the pagination loop -/

/-- Against a server every one of whose responses succeeds and advertises a
further page with a usable URL, a loop run with bound `pageCount + N`
performs exactly `N` more fetches and returns the accumulated items. -/
theorem go_maxed (server : Server) (headers : List (String × String))
    (H : ∀ u p, contOk (server u headers p)) :
    ∀ (N : Nat), 1 ≤ N → ∀ (fuel : Nat), N ≤ fuel → ∀ (url : String), url ≠ "" →
      ∀ (params : Option Params) (allItems : List Resource) (pageCount : Nat)
        (log : List RequestRec),
      SentryClient.getPaginatedGo server headers fuel url params (some (pageCount + N))
          allItems pageCount log
        = some (.ok (allItems ++ pagesItems server headers N url params),
                log ++ pagesLog server headers N url params) := by
  intro N
  induction N with
  | zero => omega
  | succ n ih =>
    intro _ fuel hfuel url hurl params allItems pageCount log
    obtain ⟨f, rfl⟩ : ∃ f, fuel = f + 1 := ⟨fuel - 1, by omega⟩
    obtain ⟨hok, hmore, hnext⟩ := H url params
    simp only [SentryClient.getPaginatedGo, if_neg hurl, get_ok hok, hmore]
    cases n with
    | zero =>
      have hyes : SentryClient.maxPagesHit (some (pageCount + 1)) (pageCount + 1) = true := by
        simp only [SentryClient.maxPagesHit, Bool.and_eq_true, decide_eq_true_eq]
        omega
      rw [if_pos hyes, if_pos trivial]
      simp [pagesItems, pagesLog]
    | succ m =>
      have hne : ¬(SentryClient.maxPagesHit (some (pageCount + (m + 1 + 1)))
          (pageCount + 1) = true) := by
        simp only [SentryClient.maxPagesHit, Bool.and_eq_true, decide_eq_true_eq, not_and]
        omega
      rw [if_neg hne, if_pos trivial]
      have harith : pageCount + (m + 1 + 1) = (pageCount + 1) + (m + 1) := by omega
      rw [harith]
      refine (ih (by omega) f (by omega) ((server url headers params).nextUrl) hnext none
        (allItems ++ (server url headers params).items) (pageCount + 1)
        (log ++ [⟨url, headers, params⟩])).trans ?_
      simp [pagesItems, pagesLog, List.append_assoc]

/-- When pages `0 .. k-1` of the chain keep the loop going, the `max_pages`
bound never fires on the counter values the run reaches, and page `k`
succeeds without advertising more, the loop performs exactly `k + 1` fetches
and returns all accumulated items. -/
theorem go_complete (server : Server) (headers : List (String × String)) (mp : Option Nat) :
    ∀ (k fuel : Nat) (url : String) (params : Option Params)
      (allItems : List Resource) (pageCount : Nat) (log : List RequestRec),
      url ≠ "" → k + 1 ≤ fuel →
      (∀ i, i < k → contOk (pageResp server headers url params i)) →
      (∀ c, pageCount < c → c ≤ pageCount + k → SentryClient.maxPagesHit mp c = false) →
      httpOk (pageResp server headers url params k) →
      (pageResp server headers url params k).hasMore = false →
      SentryClient.getPaginatedGo server headers fuel url params mp allItems pageCount log
        = some (.ok (allItems ++ pagesItems server headers (k + 1) url params),
                log ++ pagesLog server headers (k + 1) url params) := by
  intro k
  induction k with
  | zero =>
    intro fuel url params allItems pageCount log hurl hfuel hcont hmp hok hlast
    obtain ⟨f, rfl⟩ : ∃ f, fuel = f + 1 := ⟨fuel - 1, by omega⟩
    have hok0 : httpOk (server url headers params) := hok
    have hlast0 : (server url headers params).hasMore = false := hlast
    simp only [SentryClient.getPaginatedGo, if_neg hurl, get_ok hok0, hlast0]
    simp [pagesItems, pagesLog]
  | succ m ih =>
    intro fuel url params allItems pageCount log hurl hfuel hcont hmp hok hlast
    obtain ⟨f, rfl⟩ : ∃ f, fuel = f + 1 := ⟨fuel - 1, by omega⟩
    obtain ⟨hok0, hmore0, hnext0⟩ := hcont 0 (by omega)
    have hok0' : httpOk (server url headers params) := hok0
    have hmore0' : (server url headers params).hasMore = true := hmore0
    have hnext0' : (server url headers params).nextUrl ≠ "" := hnext0
    simp only [SentryClient.getPaginatedGo, if_neg hurl, get_ok hok0', hmore0']
    have hne : ¬(SentryClient.maxPagesHit mp (pageCount + 1) = true) := by
      simp [hmp (pageCount + 1) (by omega) (by omega)]
    rw [if_neg hne, if_pos trivial]
    refine (ih f ((server url headers params).nextUrl) none
      (allItems ++ (server url headers params).items) (pageCount + 1)
      (log ++ [⟨url, headers, params⟩]) hnext0' (by omega)
      (fun i hi => by
        have := hcont (i + 1) (by omega)
        rwa [pageResp_succ] at this)
      (fun c h1 h2 => hmp c (by omega) (by omega))
      (by
        have := hok
        rwa [pageResp_succ] at this)
      (by
        have := hlast
        rwa [pageResp_succ] at this)).trans ?_
    simp [pagesItems, pagesLog, List.append_assoc]

/-- When pages `0 .. j-1` keep the loop going, the bound never fires on the
counter values reached, and the fetch of page `j` returns a 4xx/5xx status,
the loop propagates exactly that `HttpError` after `j + 1` fetches,
returning no item list. -/
theorem go_fail (server : Server) (headers : List (String × String)) (mp : Option Nat) :
    ∀ (j fuel : Nat) (url : String) (params : Option Params)
      (allItems : List Resource) (pageCount : Nat) (log : List RequestRec),
      url ≠ "" → j + 1 ≤ fuel →
      (∀ i, i < j → contOk (pageResp server headers url params i)) →
      (∀ c, pageCount < c → c ≤ pageCount + j → SentryClient.maxPagesHit mp c = false) →
      400 ≤ (pageResp server headers url params j).status →
      (pageResp server headers url params j).status < 600 →
      SentryClient.getPaginatedGo server headers fuel url params mp allItems pageCount log
        = some (.error (.httpError (pageResp server headers url params j).status
                  (pageResp server headers url params j).body),
                log ++ pagesLog server headers (j + 1) url params) := by
  intro j
  induction j with
  | zero =>
    intro fuel url params allItems pageCount log hurl hfuel hcont hmp hf1 hf2
    obtain ⟨f, rfl⟩ : ∃ f, fuel = f + 1 := ⟨fuel - 1, by omega⟩
    have hfail : 400 ≤ (server url headers params).status
        ∧ (server url headers params).status < 600 := ⟨hf1, hf2⟩
    simp only [SentryClient.getPaginatedGo, if_neg hurl, get_err hfail]
    simp [pagesLog, pageResp]
  | succ m ih =>
    intro fuel url params allItems pageCount log hurl hfuel hcont hmp hf1 hf2
    obtain ⟨f, rfl⟩ : ∃ f, fuel = f + 1 := ⟨fuel - 1, by omega⟩
    obtain ⟨hok0, hmore0, hnext0⟩ := hcont 0 (by omega)
    have hok0' : httpOk (server url headers params) := hok0
    have hmore0' : (server url headers params).hasMore = true := hmore0
    have hnext0' : (server url headers params).nextUrl ≠ "" := hnext0
    simp only [SentryClient.getPaginatedGo, if_neg hurl, get_ok hok0', hmore0']
    have hne : ¬(SentryClient.maxPagesHit mp (pageCount + 1) = true) := by
      simp [hmp (pageCount + 1) (by omega) (by omega)]
    rw [if_neg hne, if_pos trivial]
    refine (ih f ((server url headers params).nextUrl) none
      (allItems ++ (server url headers params).items) (pageCount + 1)
      (log ++ [⟨url, headers, params⟩]) hnext0' (by omega)
      (fun i hi => by
        have := hcont (i + 1) (by omega)
        rwa [pageResp_succ] at this)
      (fun c h1 h2 => hmp c (by omega) (by omega))
      (by
        have := hf1
        rwa [pageResp_succ] at this)
      (by
        have := hf2
        rwa [pageResp_succ] at this)).trans ?_
    rw [pageResp_succ]
    simp [pagesLog, List.append_assoc]

/-- Every request a loop run issues while its `params` argument is already
`none` carries `none` params and the session headers. -/
theorem go_log_params_none (server : Server) (headers : List (String × String)) :
    ∀ (fuel : Nat) (url : String) (mp : Option Nat) (allItems : List Resource)
      (pageCount : Nat) (log₀ : List RequestRec)
      (res : Except SentryError (List Resource)) (log : List RequestRec),
      SentryClient.getPaginatedGo server headers fuel url none mp allItems pageCount log₀
          = some (res, log) →
      ∃ rest, log = log₀ ++ rest ∧ ∀ e ∈ rest, e.params = none ∧ e.headers = headers := by
  intro fuel
  induction fuel with
  | zero =>
    intro url mp allItems pageCount log₀ res log h
    exact absurd h (by simp [SentryClient.getPaginatedGo])
  | succ f ih =>
    intro url mp allItems pageCount log₀ res log h
    by_cases hurl : url = ""
    · simp only [SentryClient.getPaginatedGo, if_pos hurl, Option.some.injEq,
        Prod.mk.injEq] at h
      exact ⟨[], by simp [h.2.symm], by simp⟩
    · simp only [SentryClient.getPaginatedGo, if_neg hurl] at h
      cases hget : SentryClient.get server headers url none with
      | error e =>
        rw [hget] at h
        simp only [Option.some.injEq, Prod.mk.injEq] at h
        exact ⟨[⟨url, headers, none⟩], by simp [h.2.symm], by simp⟩
      | ok resp =>
        rw [hget] at h
        simp only at h
        cases hmore : resp.hasMore with
        | false =>
          rw [hmore] at h
          simp only [Bool.false_eq_true, if_false, Option.some.injEq, Prod.mk.injEq] at h
          exact ⟨[⟨url, headers, none⟩], by simp [h.2.symm], by simp⟩
        | true =>
          rw [hmore] at h
          simp only [if_true] at h
          cases hhit : SentryClient.maxPagesHit mp (pageCount + 1) with
          | true =>
            rw [hhit] at h
            simp only [if_true, Option.some.injEq, Prod.mk.injEq] at h
            exact ⟨[⟨url, headers, none⟩], by simp [h.2.symm], by simp⟩
          | false =>
            rw [hhit] at h
            simp only [Bool.false_eq_true, if_false] at h
            obtain ⟨rest', hlog, hall⟩ := ih resp.nextUrl mp
              (allItems ++ resp.items) (pageCount + 1) (log₀ ++ [⟨url, headers, none⟩])
              res log h
            refine ⟨⟨url, headers, none⟩ :: rest', by simp [hlog], ?_⟩
            intro e he
            rcases List.mem_cons.mp he with rfl | he'
            · exact ⟨rfl, rfl⟩
            · exact hall e he'

/-! ### C3: request executor status handling -/

/-- Claim C3 as stated is false on the code: `raise_for_status` raises only
for statuses 400-599, so a response with status 304 — outside the 2xx
success range — is returned successfully instead of failing with an
`HttpError`. -/
theorem claim_C3_counterexample :
    (srv304 "u" hdrs0 none).status = 304
  ∧ ¬(200 ≤ (srv304 "u" hdrs0 none).status ∧ (srv304 "u" hdrs0 none).status < 300)
  ∧ SentryClient.get srv304 hdrs0 "u" none = .ok (srv304 "u" hdrs0 none) :=
  ⟨rfl, by decide, rfl⟩

/-- Claim C3 (amended): every response with status in 400-599 makes the
executor fail with a structured `HttpError` carrying the status code and
response body, with exactly one request issued and no retry; every 2xx
response is returned successfully. -/
theorem claim_C3_amended (server : Server) (headers : List (String × String))
    (url : String) (params : Option Params) :
    (400 ≤ (server url headers params).status ∧ (server url headers params).status < 600 →
      SentryClient.get server headers url params
        = .error (.httpError (server url headers params).status
            (server url headers params).body))
  ∧ (200 ≤ (server url headers params).status ∧ (server url headers params).status < 300 →
      SentryClient.get server headers url params = .ok (server url headers params)) := by
  constructor
  · intro h
    exact get_err h
  · intro h
    exact get_ok (by unfold httpOk; omega)

/-- Witness for C3 (amended): a 404 response fails with
`HttpError 404 "not found"`, a 200 response is returned successfully. -/
theorem claim_C3_amended_witness :
    SentryClient.get srv404 hdrs0 "u" none = .error (.httpError 404 "not found")
  ∧ SentryClient.get srv200 hdrs0 "u" none = .ok (srv200 "u" hdrs0 none) :=
  ⟨(claim_C3_amended srv404 hdrs0 "u" none).1 (by decide),
   (claim_C3_amended srv200 hdrs0 "u" none).2 (by decide)⟩

/-! ### C4: a non-continuing first page stops pagination after one fetch -/

/-- Claim C4: when the first response carries no next link marked as having
further results, exactly one fetch is performed — whatever `maxPages` is —
and the result is exactly that first page's items (an empty first page gives
the empty list, not an error).  The ghost log being the one-element list is
the "exactly one fetch" statement. -/
theorem claim_C4_single_page (server : Server) (headers : List (String × String))
    (fuel : Nat) (url0 : String) (params0 : Option Params) (mp : Option Nat)
    (hurl : url0 ≠ "") (hfuel : 1 ≤ fuel)
    (hok : httpOk (server url0 headers params0))
    (hnomore : (server url0 headers params0).hasMore = false) :
    SentryClient.getPaginated server headers fuel url0 params0 mp
      = some (.ok (server url0 headers params0).items, [⟨url0, headers, params0⟩]) := by
  obtain ⟨f, rfl⟩ : ∃ f, fuel = f + 1 := ⟨fuel - 1, by omega⟩
  simp only [SentryClient.getPaginated, SentryClient.getPaginatedGo, if_neg hurl,
    get_ok hok, hnomore]
  simp

/-- Witness for C4: an empty first page with no next link yields the empty
result after exactly one fetch, even with `maxPages = 5`. -/
theorem claim_C4_single_page_witness :
    SentryClient.getPaginated srvEmptyOne hdrs0 3 "u1" (some pLimit) (some 5)
      = some (.ok [], [⟨"u1", hdrs0, some pLimit⟩]) :=
  claim_C4_single_page srvEmptyOne hdrs0 3 "u1" (some pLimit) (some 5)
    (by decide) (by decide) (by decide) (by decide)

/-! ### C1: maxPages = N against an always-continuing server -/

/-- Claim C1: against a server whose every response succeeds and carries a
next link marked `results == 'true'` (with a usable URL), a paginated fetch
with `maxPages = N` (N positive) performs exactly `N` fetches — the ghost
log is the `N`-request trace — and returns the concatenation, in fetch
order, of the items of those `N` pages; for `N = 1` a single fetch happens
even though a next link existed. -/
theorem claim_C1_maxPages_exact (server : Server) (headers : List (String × String))
    (url0 : String) (params0 : Option Params) (N fuel : Nat)
    (hN : 1 ≤ N) (hfuel : N ≤ fuel) (hurl : url0 ≠ "")
    (H : ∀ u p, contOk (server u headers p)) :
    SentryClient.getPaginated server headers fuel url0 params0 (some N)
      = some (.ok (((List.range N).map
                (fun i => (pageResp server headers url0 params0 i).items)).flatten),
              pagesLog server headers N url0 params0)
  ∧ (pagesLog server headers N url0 params0).length = N := by
  constructor
  · have h := go_maxed server headers H N hN fuel hfuel url0 hurl params0 [] 0 []
    rw [Nat.zero_add] at h
    unfold SentryClient.getPaginated
    rw [h]
    simp [pagesItems_eq_flatten]
  · exact pagesLog_length server headers N url0 params0

/-- Witness for C1: two pages fetched with `maxPages = 2` against an
always-continuing server; the next link of page 2 is never followed. -/
theorem claim_C1_maxPages_exact_witness :
    SentryClient.getPaginated srvAlways hdrs0 2 "u" (some pLimit) (some 2)
      = some (.ok [rNull, rNull], [⟨"u", hdrs0, some pLimit⟩, ⟨"next", hdrs0, none⟩]) :=
  (claim_C1_maxPages_exact srvAlways hdrs0 "u" (some pLimit) 2 2
    (by decide) (by decide) (by decide)
    (fun u p =>
      (by decide : contOk (⟨200, "", [rNull], some ⟨"next", some "true"⟩⟩ : Response)))).1

/-! ### C2: a failing page aborts the whole fetch with no partial result -/

/-- Claim C2: when pages `0 .. j-1` keep the walk going, the page bound does
not fire before page `j`, and the fetch of page `j` (the `j+1`-st fetch,
`k = j + 1` in the claim's 1-based counting) answers a 4xx/5xx status, the
whole paginated fetch evaluates to that `HttpError` alone: the caller
observes `Except.error` — no item list, the `j` already-fetched pages'
items having been discarded — after exactly `j + 1` fetches. -/
theorem claim_C2_failure_discards (server : Server) (headers : List (String × String))
    (url0 : String) (params0 : Option Params) (fuel : Nat) (mp : Option Nat) (j : Nat)
    (hurl : url0 ≠ "") (hfuel : j + 1 ≤ fuel)
    (hcont : ∀ i, i < j → contOk (pageResp server headers url0 params0 i))
    (hmp : ∀ c, 0 < c → c ≤ j → SentryClient.maxPagesHit mp c = false)
    (hf1 : 400 ≤ (pageResp server headers url0 params0 j).status)
    (hf2 : (pageResp server headers url0 params0 j).status < 600) :
    SentryClient.getPaginated server headers fuel url0 params0 mp
      = some (.error (.httpError (pageResp server headers url0 params0 j).status
                (pageResp server headers url0 params0 j).body),
              pagesLog server headers (j + 1) url0 params0)
  ∧ (pagesLog server headers (j + 1) url0 params0).length = j + 1 := by
  constructor
  · have h := go_fail server headers mp j fuel url0 params0 [] 0 [] hurl hfuel hcont
      (fun c h1 h2 => hmp c h1 (by omega)) hf1 hf2
    unfold SentryClient.getPaginated
    rw [h]
    simp
  · exact pagesLog_length server headers (j + 1) url0 params0

/-- Witness for C2: page 1 of `srvFailSecond` succeeds with a next link,
page 2 answers 500 "boom"; the overall result is the bare `HttpError` (the
first page's item is not exposed) after 2 fetches. -/
theorem claim_C2_failure_discards_witness :
    SentryClient.getPaginated srvFailSecond hdrs0 2 "u1" (some pLimit) none
      = some (.error (.httpError 500 "boom"),
              [⟨"u1", hdrs0, some pLimit⟩, ⟨"u2", hdrs0, none⟩]) :=
  (claim_C2_failure_discards srvFailSecond hdrs0 "u1" (some pLimit) 2 none 1
    (by decide) (by decide) (by decide) (fun c _ _ => rfl) (by decide) (by decide)).1

/-! ### C7: maxPages = 0 or None means unbounded -/

/-- Claim C7: with `maxPages` unset (`None`) or `0`, the page-count bound
never fires — `maxPagesHit` is false at every counter value — and the walk
continues until a response arrives with no continuing next link: if page `k`
is the first such page (pages `0 .. k-1` keep the walk going), exactly
`k + 1` fetches are performed and all their items returned. -/
theorem claim_C7_unbounded (server : Server) (headers : List (String × String))
    (url0 : String) (params0 : Option Params) (fuel : Nat) (mp : Option Nat) (k : Nat)
    (hmp0 : mp = none ∨ mp = some 0)
    (hurl : url0 ≠ "") (hfuel : k + 1 ≤ fuel)
    (hcont : ∀ i, i < k → contOk (pageResp server headers url0 params0 i))
    (hok : httpOk (pageResp server headers url0 params0 k))
    (hlast : (pageResp server headers url0 params0 k).hasMore = false) :
    (∀ c, SentryClient.maxPagesHit mp c = false)
  ∧ SentryClient.getPaginated server headers fuel url0 params0 mp
      = some (.ok (pagesItems server headers (k + 1) url0 params0),
              pagesLog server headers (k + 1) url0 params0)
  ∧ (pagesLog server headers (k + 1) url0 params0).length = k + 1 := by
  have hforall : ∀ c, SentryClient.maxPagesHit mp c = false := by
    rcases hmp0 with rfl | rfl
    · intro c; rfl
    · intro c; simp [SentryClient.maxPagesHit]
  refine ⟨hforall, ?_, pagesLog_length server headers (k + 1) url0 params0⟩
  have h := go_complete server headers mp k fuel url0 params0 [] 0 [] hurl hfuel hcont
    (fun c _ _ => hforall c) hok hlast
  unfold SentryClient.getPaginated
  rw [h]
  simp

/-- Witness for C7: with `maxPages = None` the two-page chain of `srvTwo` is
walked to its natural end — 2 fetches, both pages' items returned — and the
bound is never hit. -/
theorem claim_C7_unbounded_witness :
    SentryClient.maxPagesHit none 5 = false
  ∧ SentryClient.getPaginated srvTwo hdrs0 2 "u1" (some pLimit) none
      = some (.ok [rNull, rTimeout],
              [⟨"u1", hdrs0, some pLimit⟩, ⟨"u2", hdrs0, none⟩]) :=
  have h := claim_C7_unbounded srvTwo hdrs0 "u1" (some pLimit) 2 none 1
    (Or.inl rfl) (by decide) (by decide) (by decide) (by decide) (by decide)
  ⟨h.1 5, h.2.1⟩

/-! ### C9: only the first request carries the caller's query params -/

/-- Claim C9: in any paginated session that produces a result (success or
error), the first request issued carries the caller's URL, the session
headers and the caller-supplied query params (which include the page-size
limit), and every later request carries cleared (`none`) params and the
identical session headers — nothing else about the requests changes between
pages. -/
theorem claim_C9_params_cleared (server : Server) (headers : List (String × String))
    (fuel : Nat) (url0 : String) (params0 : Option Params) (mp : Option Nat)
    (res : Except SentryError (List Resource)) (log : List RequestRec)
    (hurl : url0 ≠ "")
    (hrun : SentryClient.getPaginated server headers fuel url0 params0 mp
      = some (res, log)) :
    ∃ rest, log = ⟨url0, headers, params0⟩ :: rest
      ∧ ∀ e ∈ rest, e.params = none ∧ e.headers = headers := by
  obtain ⟨f, rfl⟩ : ∃ f, fuel = f + 1 := by
    cases fuel with
    | zero => exact absurd hrun (by simp [SentryClient.getPaginated,
        SentryClient.getPaginatedGo])
    | succ f => exact ⟨f, rfl⟩
  unfold SentryClient.getPaginated at hrun
  simp only [SentryClient.getPaginatedGo, if_neg hurl] at hrun
  cases hget : SentryClient.get server headers url0 params0 with
  | error e =>
    rw [hget] at hrun
    simp only [Option.some.injEq, Prod.mk.injEq] at hrun
    exact ⟨[], by simp [hrun.2.symm], by simp⟩
  | ok resp =>
    rw [hget] at hrun
    simp only at hrun
    cases hmore : resp.hasMore with
    | false =>
      rw [hmore] at hrun
      simp only [Bool.false_eq_true, if_false, Option.some.injEq, Prod.mk.injEq] at hrun
      exact ⟨[], by simp [hrun.2.symm], by simp⟩
    | true =>
      rw [hmore] at hrun
      simp only [if_true] at hrun
      cases hhit : SentryClient.maxPagesHit mp (0 + 1) with
      | true =>
        rw [hhit] at hrun
        simp only [if_true, Option.some.injEq, Prod.mk.injEq] at hrun
        exact ⟨[], by simp [hrun.2.symm], by simp⟩
      | false =>
        rw [hhit] at hrun
        simp only [Bool.false_eq_true, if_false] at hrun
        obtain ⟨rest, hlog, hall⟩ := go_log_params_none server headers f
          resp.nextUrl mp ([] ++ resp.items) (0 + 1) ([] ++ [⟨url0, headers, params0⟩])
          res log hrun
        refine ⟨rest, ?_, hall⟩
        simpa using hlog

/-- Witness for C9: the concrete two-page run against `srvTwo` has a log
whose head is the caller's request (with the limit param) and whose tail
carries cleared params and the same headers. -/
theorem claim_C9_params_cleared_witness :
    ∃ rest, [(⟨"u1", hdrs0, some pLimit⟩ : RequestRec), ⟨"u2", hdrs0, none⟩]
        = (⟨"u1", hdrs0, some pLimit⟩ : RequestRec) :: rest
      ∧ ∀ e ∈ rest, e.params = none ∧ e.headers = hdrs0 :=
  claim_C9_params_cleared srvTwo hdrs0 2 "u1" (some pLimit) none
    (.ok [rNull, rTimeout]) [⟨"u1", hdrs0, some pLimit⟩, ⟨"u2", hdrs0, none⟩]
    (by decide) rfl

/-! ### C6: the text-filter predicate -/

/-- Claim C6: for a non-empty filter string, `matches_text_filter` returns
true iff the lowercased filter occurs as a substring of the lowercased
title, culprit, `str(metadata.value)` or `str(metadata.type)` (missing
fields read as `""`), and a resource matching none of the four fields is
excluded from the filtered result. -/
theorem claim_C6_matches_iff (issue : Resource) (tf : String) (hne : tf ≠ "") :
    (matchesTextFilter issue tf = true ↔
      (strContainsSub (lowerStr (issue.title.getD "")) (lowerStr tf) = true
       ∨ strContainsSub (lowerStr (issue.culprit.getD "")) (lowerStr tf) = true
       ∨ strContainsSub
           (lowerStr ((issue.metadata.getD ⟨none, none⟩).value.getD (.s "")).pyStr)
           (lowerStr tf) = true
       ∨ strContainsSub
           (lowerStr ((issue.metadata.getD ⟨none, none⟩).type.getD (.s "")).pyStr)
           (lowerStr tf) = true))
  ∧ (matchesTextFilter issue tf = false →
      ∀ l : List Resource, issue ∉ applyTextFilter l tf) := by
  constructor
  · unfold matchesTextFilter
    cases h1 : strContainsSub (lowerStr (issue.title.getD "")) (lowerStr tf) <;>
      cases h2 : strContainsSub (lowerStr (issue.culprit.getD "")) (lowerStr tf) <;>
      cases h3 : strContainsSub
          (lowerStr ((issue.metadata.getD ⟨none, none⟩).value.getD (.s "")).pyStr)
          (lowerStr tf) <;>
      cases h4 : strContainsSub
          (lowerStr ((issue.metadata.getD ⟨none, none⟩).type.getD (.s "")).pyStr)
          (lowerStr tf) <;>
      simp [h1, h2, h3, h4]
  · intro hfalse l hmem
    have hp := (List.mem_filter.mp hmem).2
    rw [hfalse] at hp
    exact Bool.false_ne_true hp

/-- Witness for C6 (spec scenario): the issue titled "Null pointer in Foo"
matches the filter `"null"`. -/
theorem claim_C6_matches_iff_witness : matchesTextFilter rNull "null" = true :=
  (claim_C6_matches_iff rNull "null" (by decide)).1.mpr (Or.inl (by decide))

/-! ### C5: the query composer -/

/-- Claim C5: when the supplied dates parse (to `isoS`, `isoE`),
`buildQuery` succeeds; it returns the absent query (`none`) exactly when
none of the four criteria is supplied, and otherwise the single space-joined
string of the fragments `environment:<v>`, `firstSeen:><isoS>Z`,
`firstSeen:<<isoE>Z` and the raw query verbatim, in this fixed order. -/
theorem claim_C5_buildQuery (fromiso : String → Option String) (f : IssueFilters)
    (isoS isoE : String)
    (hS : strTruthy f.startAt = true → fromiso (f.startAt.getD "") = some isoS)
    (hE : strTruthy f.endAt = true → fromiso (f.endAt.getD "") = some isoE) :
    buildQuery fromiso f
      = .ok (if queryFragments f isoS isoE = [] then none
             else some (String.intercalate " " (queryFragments f isoS isoE)))
  ∧ (buildQuery fromiso f = .ok none ↔
      (strTruthy f.environment = false ∧ strTruthy f.startAt = false
       ∧ strTruthy f.endAt = false ∧ strTruthy f.query = false)) := by
  have hsp : startParts fromiso f
      = .ok (if strTruthy f.startAt = true then ["firstSeen:>" ++ isoS ++ "Z"] else []) := by
    unfold startParts
    cases hA : strTruthy f.startAt with
    | false => simp
    | true => simp [hS hA]
  have hep : endParts fromiso f
      = .ok (if strTruthy f.endAt = true then ["firstSeen:<" ++ isoE ++ "Z"] else []) := by
    unfold endParts
    cases hB : strTruthy f.endAt with
    | false => simp
    | true => simp [hE hB]
  have h1 : buildQuery fromiso f
      = .ok (if queryFragments f isoS isoE = [] then none
             else some (String.intercalate " " (queryFragments f isoS isoE))) := by
    unfold buildQuery
    rw [hsp, hep]
    simp only [queryFragments, envParts, rawParts]
  refine ⟨h1, ?_⟩
  rw [h1]
  cases hEnv : strTruthy f.environment <;> cases hA : strTruthy f.startAt <;>
    cases hB : strTruthy f.endAt <;> cases hQ : strTruthy f.query <;>
    simp [queryFragments, hEnv, hA, hB, hQ]

/-- Witness for C5 (spec scenario): environment `"production"` with raw
query `"is:unresolved"` composes to
`"environment:production is:unresolved"`. -/
theorem claim_C5_buildQuery_witness :
    buildQuery fromisoX ⟨some "production", none, none, some "is:unresolved"⟩
      = .ok (some "environment:production is:unresolved") :=
  (claim_C5_buildQuery fromisoX ⟨some "production", none, none, some "is:unresolved"⟩
    "" "" (fun h => absurd h (by decide)) (fun h => absurd h (by decide))).1

/-! ### C8: a malformed date fails before any network call -/

/-- Claim C8: if `startAt` or `endAt` is supplied but does not parse,
`cmd_fetch_issues` fails with a `ValidationError` raised during query
composition, and the ghost request log is empty — no request is issued to
the server for the operation. -/
theorem claim_C8_validation_before_network (server : Server)
    (headers : List (String × String)) (fromiso : String → Option String)
    (baseUrl orgSlug : String) (args : FetchIssuesArgs)
    (hfail : (strTruthy args.startAt = true ∧ fromiso (args.startAt.getD "") = none)
           ∨ (strTruthy args.endAt = true ∧ fromiso (args.endAt.getD "") = none)) :
    ∃ s, cmdFetchIssues server headers fromiso baseUrl orgSlug args
      = (.error (.validationError s), []) := by
  have hbq : ∃ s,
      buildQuery fromiso ⟨args.environment, args.startAt, args.endAt, args.query⟩
        = .error (.validationError s) := by
    rcases hfail with ⟨hset, hparse⟩ | ⟨hset, hparse⟩
    · exact ⟨args.startAt.getD "", by
        unfold buildQuery startParts
        simp [hset, hparse]⟩
    · cases hA : strTruthy args.startAt with
      | false =>
        exact ⟨args.endAt.getD "", by
          unfold buildQuery startParts endParts
          simp [hA, hset, hparse]⟩
      | true =>
        cases hps : fromiso (args.startAt.getD "") with
        | none =>
          exact ⟨args.startAt.getD "", by
            unfold buildQuery startParts
            simp [hA, hps]⟩
        | some iso =>
          exact ⟨args.endAt.getD "", by
            unfold buildQuery startParts endParts
            simp [hA, hps, hset, hparse]⟩
  obtain ⟨s, hs⟩ := hbq
  refine ⟨s, ?_⟩
  unfold cmdFetchIssues
  rw [hs]

/-- Witness for C8: `startAt = "garbage"` does not parse; the command fails
with a `ValidationError` and the request log is empty. -/
theorem claim_C8_validation_before_network_witness :
    ∃ s, cmdFetchIssues srv200 hdrs0 fromisoX "https://sentry.io/api/0" "square-inc"
        ⟨"sub2", none, some "garbage", none, none, none, none, 50, "date"⟩
      = (.error (.validationError s), []) :=
  claim_C8_validation_before_network srv200 hdrs0 fromisoX "https://sentry.io/api/0"
    "square-inc" ⟨"sub2", none, some "garbage", none, none, none, none, 50, "date"⟩
    (Or.inl ⟨by decide, by decide⟩)

/-! ### C10: the local filter is an order-preserving subsequence selection -/

/-- Claim C10: the local text filter returns exactly the matching
subsequence of its input — the output is a sublist of the input (relative
order preserved, no foreign or mutated elements: membership is equivalent to
membership in the input plus a positive match), and filtering twice equals
filtering once. -/
theorem claim_C10_filter_subsequence (issues : List Resource) (tf : String) :
    (applyTextFilter issues tf).Sublist issues
  ∧ (∀ r : Resource,
      r ∈ applyTextFilter issues tf ↔ (r ∈ issues ∧ matchesTextFilter r tf = true))
  ∧ applyTextFilter (applyTextFilter issues tf) tf = applyTextFilter issues tf := by
  refine ⟨List.filter_sublist _, fun r => List.mem_filter, ?_⟩
  unfold applyTextFilter
  rw [List.filter_filter]
  simp

/-- Witness for C10 (spec scenario): filtering `[rNull, rTimeout]` by
`"null"` is idempotent. -/
theorem claim_C10_filter_subsequence_witness :
    applyTextFilter (applyTextFilter [rNull, rTimeout] "null") "null"
      = applyTextFilter [rNull, rTimeout] "null" :=
  (claim_C10_filter_subsequence [rNull, rTimeout] "null").2.2

end SentryApi
